import Mathlib

/-!
Verification of the `scrape_schema` field-resolution engine
(`src/scrape_schema/base.py`) against its natural-language specification.

The development shallowly embeds the parts of `base.py` the claims are
about: Python runtime values (`Value`), truthiness (`truthy`, embedding
`bool(...)`), the mapping conversion `BaseSchema._to_dict` / `BaseSchema.dict`
(`to_dict` / `instance_dict`), `BaseSchema.__bool__` (`schema_bool`),
the annotation introspection `BaseField._get_type` (`get_type`), the
validator check `BaseField._validate` / `BaseField._raise_validator`,
the construction loop `BaseSchema.__init__` (`init_fields` / `schema_init`),
the field collection `BaseSchema._get_fields`, and — for the aliasing
claims — an explicit object-store/heap model of `copy.deepcopy` with
`BaseField.__deepcopy__` delegating to `copy.copy`.
-/

namespace ScrapeSchema

/-- Embedding of the Python runtime values the engine manipulates:
`None`, strings, integers, booleans, lists, dicts (ordered key/value
pairs, as Python dicts preserve insertion order) and `BaseSchema`
instances.  A schema instance is represented by the ordered list of its
non-dunder `__dict__` entries (one resolved value per declared field). -/
inductive Value where
  | none : Value
  | str (s : String) : Value
  | int (n : Int) : Value
  | bool (b : Bool) : Value
  | list (xs : List Value) : Value
  | dict (kvs : List (String × Value)) : Value
  | schema (attrs : List (String × Value)) : Value
  deriving Repr

mutual

/-- Structural equality on embedded Python values (Python `==` at the
abstraction level of this model). -/
def valueEq : Value → Value → Bool
  | .none, .none => true
  | .str a, .str b => a == b
  | .int a, .int b => a == b
  | .bool a, .bool b => a == b
  | .list xs, .list ys => valueListEq xs ys
  | .dict xs, .dict ys => kvListEq xs ys
  | .schema xs, .schema ys => kvListEq xs ys
  | _, _ => false

def valueListEq : List Value → List Value → Bool
  | [], [] => true
  | x :: xs, y :: ys => valueEq x y && valueListEq xs ys
  | _, _ => false

def kvListEq : List (String × Value) → List (String × Value) → Bool
  | [], [] => true
  | (k, v) :: xs, (l, w) :: ys => k == l && valueEq v w && kvListEq xs ys
  | _, _ => false

end

/-- `isinstance(value, BaseSchema)`. -/
def isSchema : Value → Bool
  | .schema _ => true
  | _ => false

mutual

/-- Python truthiness `bool(v)`: `None`, `""`, `0`, `False`, `[]` and `{}`
are falsy; a `BaseSchema` instance delegates to `BaseSchema.__bool__`
(base.py line 220), embedded structurally here as `schemaAll` and proved
below to agree with the direct transcription `schema_bool` of line 221. -/
def truthy : Value → Bool
  | .none => false
  | .str s => !(s == "")
  | .int n => !(n == 0)
  | .bool b => b
  | .list xs => !xs.isEmpty
  | .dict kvs => !kvs.isEmpty
  | .schema attrs => schemaAll attrs

/-- `all(bool(x) for x in instance.dict().values())`, folded structurally
over the attribute list. -/
def schemaAll : List (String × Value) → Bool
  | [] => true
  | (_, v) :: rest => truthyAfterConv v && schemaAll rest

/-- `bool(BaseSchema._to_dict(v))`: the conversion turns a schema into its
(equally long) attribute dict and keeps the length of lists/dicts, so
truthiness of the converted value only needs the top constructor. -/
def truthyAfterConv : Value → Bool
  | .schema attrs => !attrs.isEmpty
  | .none => false
  | .str s => !(s == "")
  | .int n => !(n == 0)
  | .bool b => b
  | .list xs => !xs.isEmpty
  | .dict kvs => !kvs.isEmpty

end

mutual

/-- `BaseSchema._to_dict` (base.py lines 199-211): a schema becomes its
`dict()`; a list whose elements are all schemas becomes the list of their
`dict()`s; a dict whose values are all schemas becomes the dict of their
`dict()`s; every other value is returned unchanged. -/
def to_dict : Value → Value
  | .schema attrs => .dict (instance_dict attrs)
  | .list xs =>
      if xs.all isSchema then .list (convList xs) else .list xs
  | .dict kvs =>
      if (kvs.map Prod.snd).all isSchema then .dict (convKvs kvs) else .dict kvs
  | v => v

/-- `BaseSchema.dict` (base.py lines 213-218) on an instance given by its
non-dunder `__dict__` entries: apply `_to_dict` to every value. -/
def instance_dict : List (String × Value) → List (String × Value)
  | [] => []
  | (k, v) :: rest => (k, to_dict v) :: instance_dict rest

/-- `[val.dict() for val in value]` for a list of schemas (each element is
a schema by the `all` guard; non-schema elements are left as-is, a case
that is unreachable under the guard). -/
def convList : List Value → List Value
  | [] => []
  | .schema attrs :: rest => .dict (instance_dict attrs) :: convList rest
  | v :: rest => v :: convList rest

/-- `{k: v.dict() for k, v in value.items()}` for a dict all of whose
values are schemas. -/
def convKvs : List (String × Value) → List (String × Value)
  | [] => []
  | (k, .schema attrs) :: rest => (k, .dict (instance_dict attrs)) :: convKvs rest
  | (k, v) :: rest => (k, v) :: convKvs rest

end

/-- `BaseSchema.__bool__` (base.py lines 220-221), transcribed directly:
`all(list(self.dict().values()))`. -/
def schema_bool (attrs : List (String × Value)) : Bool :=
  ((instance_dict attrs).map Prod.snd).all truthy

/-! ### Annotation introspection: `BaseField._get_type` (base.py lines 90-118) -/

/-- Python classes relevant to `_get_type`: the builtin scalars, the two
container classes that suppress coercion, `NoneType`, and arbitrary other
classes. -/
inductive PyClass where
  | intC | strC | floatC | boolC | dictC | listC | noneTypeC
  | other (name : String)
  deriving DecidableEq, Repr

/-- `issubclass(c, (dict, list))` at the granularity of this model. -/
def isDictOrList : PyClass → Bool
  | .dictC => true
  | .listC => true
  | _ => false

/-- A resolved type annotation as returned by `get_type_hints`:
a plain class; a builtin parametrized generic such as `list[int]`
(`types.GenericAlias`); a PEP-604 union such as `int | None`
(`types.UnionType`); a `typing` construct with non-empty `get_args`
such as `Optional[int]` or `List[int]` (not an instance of either
runtime class, caught by the `get_args` fallback at base.py line 100);
or a non-class atom such as `typing.Any` on which `issubclass` raises
`TypeError`.  Parametrized constructors carry their first argument
explicitly since `get_args(...)[0]` is only reached for non-empty
argument tuples. -/
inductive Ann where
  | cls (c : PyClass)
  | genericAlias (head : Ann) (rest : List Ann)
  | unionType (head : Ann) (rest : List Ann)
  | typingGeneric (head : Ann) (rest : List Ann)
  | special (name : String)
  deriving Repr

/-- `BaseField._get_type` (base.py lines 90-118) on the annotation found
for the field name (`Option.none` = no annotation).  Returns the would-be
coercion target together with a flag recording whether the
`RuntimeWarning` of lines 112-116 was emitted.  The `isinstance(type_,
NoneType)` branch at line 94 tests whether the annotation object *is*
`None`, which the walrus-truthiness guard of line 92 already excludes, so
it is unreachable and has no counterpart here. -/
def get_type (ann : Option Ann) : Option PyClass × Bool :=
  match ann with
  | .none => (.none, false)
  | .some a =>
    let t : Ann :=
      match a with
      | .genericAlias head _ => head
      | .unionType head _ => head
      | .typingGeneric head _ => head
      | a => a
    match t with
    | .cls c => if isDictOrList c then (.none, false) else (.some c, false)
    | _ => (.none, true)

/-! ### Validation: `BaseField._validate` and `BaseField._raise_validator`
(base.py lines 68-71 and 83-88) -/

/-- The validator configuration of a field: `None` or a predicate. -/
structure ValidatorCfg where
  validator : Option (Value → Bool)

/-- `BaseField._validate` (base.py lines 68-71):
`bool(not self.validator or self.validator(value))`. -/
def _validate (f : ValidatorCfg) (v : Value) : Bool :=
  match f.validator with
  | .none => true
  | .some p => p v

/-- The exceptions `BaseSchema.__init__` and its helpers can raise. -/
inductive SchemaError where
  | validationError
  | typeError (backend : Nat)
  | parseFailAttempts (fails : Nat) (total : Nat)
  deriving DecidableEq, Repr

/-- `BaseField._raise_validator` (base.py lines 83-88): raises
`ValidationError` exactly when `instance.__VALIDATE__` holds and
`_validate` rejects the value; otherwise returns normally. -/
def _raise_validator (validateFlag : Bool) (f : ValidatorCfg) (v : Value) :
    Except SchemaError Unit :=
  if validateFlag ∧ _validate f v = false then
    .error .validationError
  else
    .ok ()

/-! ### The construction engine: `BaseSchema.__init__` (base.py lines 154-189)

Backend parser classes (the keys of `__MARKUP_PARSERS__`) are identified
by natural numbers; building a backend document from the markup —
`cls_type(markup, **params)`, with the per-class options folded in — is
an abstract function `build : Nat → String → Value`.  A field's concrete
`parse` method (implemented by subclasses outside `base.py`) is an
abstract function from the markup-or-document it is handed to the
resolved value. -/

/-- The per-field data `BaseSchema.__init__` consumes: the required
backend class `__MARKUP_PARSER__` (`Option.none` embeds the Python
`None`, and the `if not field.__MARKUP_PARSER__` truthiness test, since
class objects are always truthy), the configured `default`, and the
field's resolution `field(self, name, markup_or_doc)`. -/
structure Field where
  backend_type : Option Nat
  default : Value
  parse : Value → Value

/-- The per-class configuration and declarations of a schema class:
`__MARKUP_PARSERS__` keys, `__MAX_FAILS_COUNTER__`, and the declared
fields in declaration order (`_get_fields` output). -/
structure Schema where
  markup_parsers : List Nat
  max_fails : Int
  fields : List (String × Field)

/-- `_init_markups` (base.py lines 156-159): one built document per
configured backend class, keyed by the class. -/
def schema_docs (s : Schema) (build : Nat → String → Value) (markup : String) :
    List (Nat × Value) :=
  s.markup_parsers.map fun t => (t, build t markup)

/-- The three-way dispatch of base.py lines 164-174 for one field:
no required backend → resolve against the raw markup; required backend
whose built document is found *and truthy* (the walrus test
`elif parser := _init_markups.get(...)`) → resolve against the document;
otherwise → `TypeError`. -/
def resolve_field (markup : Value) (docs : List (Nat × Value)) (f : Field) :
    Except SchemaError Value :=
  match f.backend_type with
  | .none => .ok (f.parse markup)
  | .some t =>
    match docs.lookup t with
    | .some doc => if truthy doc then .ok (f.parse doc) else .error (.typeError t)
    | .none => .error (.typeError t)

/-- The field loop of base.py lines 162-189: resolve each field in
order, count resolutions equal to the field's default when
`__MAX_FAILS_COUNTER__ >= 0` (the `hasattr(field, "default")` conjunct
always holds, `BaseField.__init__` sets the attribute), raise
`ParseFailAttemptsError` as soon as the counter exceeds the threshold,
and otherwise record the value under the field's name (`setattr`). -/
def init_fields (max_fails : Int) (total : Nat) (markup : Value)
    (docs : List (Nat × Value)) :
    List (String × Field) → Nat → List (String × Value) →
    Except SchemaError (List (String × Value) × Nat)
  | [], fails, attrs => .ok (attrs, fails)
  | (name, f) :: rest, fails, attrs =>
    match resolve_field markup docs f with
    | .error e => .error e
    | .ok value =>
      if 0 ≤ max_fails ∧ valueEq value f.default = true then
        if (fails + 1 : Int) > max_fails then
          .error (.parseFailAttempts (fails + 1) total)
        else
          init_fields max_fails total markup docs rest (fails + 1)
            (attrs ++ [(name, value)])
      else
        init_fields max_fails total markup docs rest fails
          (attrs ++ [(name, value)])

/-- `BaseSchema.__init__` (base.py lines 154-189): build the backend
documents, then run the field loop starting from zero failures and an
empty instance `__dict__`; the result is the ordered list of instance
attributes. -/
def schema_init (s : Schema) (build : Nat → String → Value) (markup : String) :
    Except SchemaError (List (String × Value)) :=
  match init_fields s.max_fails s.fields.length (.str markup)
      (schema_docs s build markup) s.fields 0 [] with
  | .ok (attrs, _) => .ok attrs
  | .error e => .error e

/-- Whether the dispatch of base.py lines 164-174 succeeds for a field:
either no backend is required, or the required backend's document exists
and is truthy. -/
def backend_ok (docs : List (Nat × Value)) (f : Field) : Bool :=
  match f.backend_type with
  | .none => true
  | .some t =>
    match docs.lookup t with
    | .some doc => truthy doc
    | .none => false

/-- The value a field resolves to when its dispatch succeeds. -/
def resolved_value (markup : Value) (docs : List (Nat × Value)) (f : Field) :
    Value :=
  match f.backend_type with
  | .none => f.parse markup
  | .some t => f.parse ((docs.lookup t).getD .none)

/-- How many fields of the list resolve to a value equal to their
configured default. -/
def count_defaults (markup : Value) (docs : List (Nat × Value)) :
    List (String × Field) → Nat
  | [] => 0
  | (_, f) :: rest =>
    (if valueEq (resolved_value markup docs f) f.default then 1 else 0) +
      count_defaults markup docs rest

/-! ### Aliasing model: field snapshot via `copy.deepcopy` with
`BaseField.__deepcopy__ = copy.copy` (base.py lines 129-130 and 160)

Python objects alias mutable values: a field object's `__dict__` binds
attribute names to *references* into a heap of values.  `copy.copy`
creates a new object whose `__dict__` is a shallow copy — same names
bound to the same references.  `copy.deepcopy` on the field mapping
copies the dict and copies each field through its `__deepcopy__` hook,
which `BaseField` overrides to `copy.copy(self)`. -/

/-- A reference into the heap of attribute values. -/
abbrev Ref := Nat

/-- The heap of (possibly mutable) Python values, indexed by `Ref`. -/
abbrev Heap := List Value

/-- A field object's `__dict__`: attribute names bound to references. -/
structure FieldObj where
  attrs : List (String × Ref)

/-- Reading an attribute returns the bound reference. -/
def getattr_ref (f : FieldObj) (a : String) : Option Ref :=
  f.attrs.lookup a

/-- Dict update: replace the binding of an existing key in place,
else append a new one (Python `__dict__` assignment). -/
def setKV : List (String × Ref) → String → Ref → List (String × Ref)
  | [], a, r => [(a, r)]
  | (k, v) :: rest, a, r =>
    if k = a then (k, r) :: rest else (k, v) :: setKV rest a r

/-- `setattr` on a field object: rebind one attribute to a new
reference, producing the updated object (the original object value is
unaffected; aliasing of the *referenced* values is tracked by `Heap`). -/
def setattr_ref (f : FieldObj) (a : String) (r : Ref) : FieldObj :=
  ⟨setKV f.attrs a r⟩

/-- `copy.copy(self)`: a new object whose `__dict__` is a shallow copy
of the original's — the same attribute names bound to the same value
references. -/
def copy_copy (f : FieldObj) : FieldObj :=
  ⟨f.attrs⟩

/-- `BaseField.__deepcopy__` (base.py lines 129-130):
`return copy.copy(self)` — the deep-copy protocol is overridden to a
shallow copy, so referenced attribute values are not duplicated. -/
def field_deepcopy (f : FieldObj) : FieldObj :=
  copy_copy f

/-- `copy.deepcopy(self._get_fields())` as executed at base.py line 160:
a fresh mapping whose field objects are produced by each field's
`__deepcopy__` hook. -/
def snapshot_fields (fs : List (String × FieldObj)) : List (String × FieldObj) :=
  fs.map fun nf => (nf.1, field_deepcopy nf.2)

/-- Read the value a reference points at. -/
def heap_get (h : Heap) (r : Ref) : Option Value :=
  h[r]?

/-- In-place mutation of the value a reference points at (e.g. mutating
a list or dict stored in a field attribute). -/
def heap_set (h : Heap) (r : Ref) (v : Value) : Heap :=
  h.set r v

/-! ### Field collection: `BaseSchema._get_fields` (base.py lines 139-152) -/

/-- A class-attribute value as `_get_fields` sees it: a `BaseField`
instance or anything else (methods, config values, ...). -/
inductive Member where
  | field (f : Field)
  | other
  deriving Inhabited

/-- A schema class's attribute dictionaries: its own `cls.__dict__`
entries in declaration order, and the entries its base classes would
contribute through attribute lookup (which `cls.__dict__` does *not*
contain). -/
structure ClsDict where
  own : List (String × Member)
  inherited : List (String × Member)

/-- `BaseSchema._is_dunder` (base.py lines 139-141). -/
def _is_dunder (name : String) : Bool :=
  name.startsWith "__" && name.endsWith "__"

/-- `BaseSchema._is_field` (base.py lines 143-145):
`isinstance(obj, BaseField)`. -/
def _is_field : Member → Bool
  | .field _ => true
  | .other => false

/-- `BaseSchema._get_fields` (base.py lines 147-152): the own-dict
entries whose name is not dunder and whose value is a `BaseField`, in
declaration order. -/
def _get_fields (c : ClsDict) : List (String × Field)
  := c.own.filterMap fun nm =>
    match nm.2 with
    | .field f => if _is_dunder nm.1 then Option.none else some (nm.1, f)
    | .other => Option.none

/-! ### Helper lemmas -/

mutual

theorem valueEq_iff : ∀ a b : Value, valueEq a b = true ↔ a = b
  | .none, .none => by simp [valueEq]
  | .str a, .str b => by simp [valueEq]
  | .int a, .int b => by simp [valueEq]
  | .bool a, .bool b => by simp [valueEq]
  | .list xs, .list ys => by
      simp only [valueEq, valueListEq_iff xs ys, Value.list.injEq]
  | .dict xs, .dict ys => by
      simp only [valueEq, kvListEq_iff xs ys, Value.dict.injEq]
  | .schema xs, .schema ys => by
      simp only [valueEq, kvListEq_iff xs ys, Value.schema.injEq]
  | .none, .str _ => by simp [valueEq]
  | .none, .int _ => by simp [valueEq]
  | .none, .bool _ => by simp [valueEq]
  | .none, .list _ => by simp [valueEq]
  | .none, .dict _ => by simp [valueEq]
  | .none, .schema _ => by simp [valueEq]
  | .str _, .none => by simp [valueEq]
  | .str _, .int _ => by simp [valueEq]
  | .str _, .bool _ => by simp [valueEq]
  | .str _, .list _ => by simp [valueEq]
  | .str _, .dict _ => by simp [valueEq]
  | .str _, .schema _ => by simp [valueEq]
  | .int _, .none => by simp [valueEq]
  | .int _, .str _ => by simp [valueEq]
  | .int _, .bool _ => by simp [valueEq]
  | .int _, .list _ => by simp [valueEq]
  | .int _, .dict _ => by simp [valueEq]
  | .int _, .schema _ => by simp [valueEq]
  | .bool _, .none => by simp [valueEq]
  | .bool _, .str _ => by simp [valueEq]
  | .bool _, .int _ => by simp [valueEq]
  | .bool _, .list _ => by simp [valueEq]
  | .bool _, .dict _ => by simp [valueEq]
  | .bool _, .schema _ => by simp [valueEq]
  | .list _, .none => by simp [valueEq]
  | .list _, .str _ => by simp [valueEq]
  | .list _, .int _ => by simp [valueEq]
  | .list _, .bool _ => by simp [valueEq]
  | .list _, .dict _ => by simp [valueEq]
  | .list _, .schema _ => by simp [valueEq]
  | .dict _, .none => by simp [valueEq]
  | .dict _, .str _ => by simp [valueEq]
  | .dict _, .int _ => by simp [valueEq]
  | .dict _, .bool _ => by simp [valueEq]
  | .dict _, .list _ => by simp [valueEq]
  | .dict _, .schema _ => by simp [valueEq]
  | .schema _, .none => by simp [valueEq]
  | .schema _, .str _ => by simp [valueEq]
  | .schema _, .int _ => by simp [valueEq]
  | .schema _, .bool _ => by simp [valueEq]
  | .schema _, .list _ => by simp [valueEq]
  | .schema _, .dict _ => by simp [valueEq]

theorem valueListEq_iff : ∀ xs ys : List Value, valueListEq xs ys = true ↔ xs = ys
  | [], [] => by simp [valueListEq]
  | x :: xs, y :: ys => by
      simp only [valueListEq, Bool.and_eq_true, valueEq_iff x y,
        valueListEq_iff xs ys, List.cons.injEq]
  | [], _ :: _ => by simp [valueListEq]
  | _ :: _, [] => by simp [valueListEq]

theorem kvListEq_iff : ∀ xs ys : List (String × Value), kvListEq xs ys = true ↔ xs = ys
  | [], [] => by simp [kvListEq]
  | (k, v) :: xs, (l, w) :: ys => by
      simp only [kvListEq, Bool.and_eq_true, beq_iff_eq, valueEq_iff v w,
        kvListEq_iff xs ys, List.cons.injEq, Prod.mk.injEq, and_assoc]
  | [], _ :: _ => by simp [kvListEq]
  | _ :: _, [] => by simp [kvListEq]

end

theorem instance_dict_eq_map (attrs : List (String × Value)) :
    instance_dict attrs = attrs.map (fun kv => (kv.1, to_dict kv.2)) := by
  induction attrs with
  | nil => simp [instance_dict]
  | cons kv rest ih => cases kv with
      | mk k v => simp [instance_dict, ih]

theorem convList_length : ∀ xs : List Value, (convList xs).length = xs.length
  | [] => rfl
  | .none :: rest => by simp [convList, convList_length rest]
  | .str _ :: rest => by simp [convList, convList_length rest]
  | .int _ :: rest => by simp [convList, convList_length rest]
  | .bool _ :: rest => by simp [convList, convList_length rest]
  | .list _ :: rest => by simp [convList, convList_length rest]
  | .dict _ :: rest => by simp [convList, convList_length rest]
  | .schema _ :: rest => by simp [convList, convList_length rest]

theorem convKvs_length : ∀ xs : List (String × Value), (convKvs xs).length = xs.length
  | [] => rfl
  | (_, .none) :: rest => by simp [convKvs, convKvs_length rest]
  | (_, .str _) :: rest => by simp [convKvs, convKvs_length rest]
  | (_, .int _) :: rest => by simp [convKvs, convKvs_length rest]
  | (_, .bool _) :: rest => by simp [convKvs, convKvs_length rest]
  | (_, .list _) :: rest => by simp [convKvs, convKvs_length rest]
  | (_, .dict _) :: rest => by simp [convKvs, convKvs_length rest]
  | (_, .schema _) :: rest => by simp [convKvs, convKvs_length rest]

theorem isEmpty_eq_decide_length {α : Type} (l : List α) :
    l.isEmpty = decide (l.length = 0) := by
  cases l <;> simp

/-- The truthiness of a converted value only depends on the original value:
`bool(BaseSchema._to_dict(v)) = truthyAfterConv v`. -/
theorem truthy_to_dict (v : Value) : truthy (to_dict v) = truthyAfterConv v := by
  cases v with
  | none => rfl
  | str s => rfl
  | int n => rfl
  | bool b => rfl
  | schema attrs =>
      simp [to_dict, truthy, truthyAfterConv, instance_dict_eq_map,
        isEmpty_eq_decide_length]
  | list xs =>
      by_cases h : xs.all isSchema
      · simp [to_dict, h, truthy, truthyAfterConv, isEmpty_eq_decide_length,
          convList_length]
      · simp [to_dict, h, truthy, truthyAfterConv]
  | dict kvs =>
      by_cases h : (kvs.map Prod.snd).all isSchema
      · simp [to_dict, h, truthy, truthyAfterConv, isEmpty_eq_decide_length,
          convKvs_length]
      · simp [to_dict, h, truthy, truthyAfterConv]

/-- The structural embedding of `__bool__` used inside `truthy` coincides
with the direct transcription `schema_bool` of base.py line 221. -/
theorem schemaAll_eq_schema_bool (attrs : List (String × Value)) :
    schemaAll attrs = schema_bool attrs := by
  induction attrs with
  | nil => rfl
  | cons kv rest ih =>
      cases kv with
      | mk k v =>
          simp [schemaAll, schema_bool, instance_dict, List.all_cons,
            truthy_to_dict, ih]

theorem resolve_field_of_backend_ok (markup : Value) (docs : List (Nat × Value))
    (f : Field) (h : backend_ok docs f = true) :
    resolve_field markup docs f = .ok (resolved_value markup docs f) := by
  cases hb : f.backend_type with
  | none => simp [resolve_field, resolved_value, hb]
  | some t =>
    simp only [backend_ok, hb] at h
    cases hl : docs.lookup t with
    | none => simp [hl] at h
    | some doc =>
      simp only [hl] at h
      simp [resolve_field, resolved_value, hb, hl, h]

theorem resolve_field_ok_inv (markup : Value) (docs : List (Nat × Value))
    (f : Field) (v : Value) (h : resolve_field markup docs f = .ok v) :
    backend_ok docs f = true ∧ v = resolved_value markup docs f := by
  cases hb : f.backend_type with
  | none =>
    simp only [resolve_field, hb, Except.ok.injEq] at h
    simp [backend_ok, resolved_value, hb, h]
  | some t =>
    simp only [resolve_field, hb] at h
    cases hl : docs.lookup t with
    | none => simp [hl] at h
    | some doc =>
      simp only [hl] at h
      by_cases ht : truthy doc
      · simp only [ht, if_true, Except.ok.injEq] at h
        simp [backend_ok, resolved_value, hb, hl, ht, h]
      · simp [ht] at h

/-- Running the loop over a prefix of fields whose dispatch succeeds and
whose default-count stays within the threshold just accumulates the
resolved attributes and (when fail-tracking is on) the default-count. -/
theorem init_fields_append (max_fails : Int) (total : Nat) (markup : Value)
    (docs : List (Nat × Value)) (pre rest : List (String × Field)) :
    ∀ (fails : Nat) (attrs : List (String × Value)),
    (∀ nf ∈ pre, backend_ok docs nf.2 = true) →
    (0 ≤ max_fails → (fails : Int) + count_defaults markup docs pre ≤ max_fails) →
    init_fields max_fails total markup docs (pre ++ rest) fails attrs =
      init_fields max_fails total markup docs rest
        (if 0 ≤ max_fails then fails + count_defaults markup docs pre else fails)
        (attrs ++ pre.map fun nf => (nf.1, resolved_value markup docs nf.2)) := by
  induction pre with
  | nil =>
    intro fails attrs _ _
    by_cases hm : 0 ≤ max_fails <;> simp [count_defaults, hm]
  | cons nf pre ih =>
    intro fails attrs h hI
    obtain ⟨name, f⟩ := nf
    have hbf : backend_ok docs f = true := h (name, f) (by simp)
    have hpre : ∀ x ∈ pre, backend_ok docs x.2 = true := fun x hx => h x (by simp [hx])
    have hres := resolve_field_of_backend_ok markup docs f hbf
    simp only [List.cons_append, init_fields, hres, List.append_eq]
    by_cases hm : 0 ≤ max_fails
    · by_cases hd : valueEq (resolved_value markup docs f) f.default = true
      · have hcnt : count_defaults markup docs ((name, f) :: pre) =
            1 + count_defaults markup docs pre := by
          simp [count_defaults, hd]
        have hIc : (fails : Int) + (1 + count_defaults markup docs pre) ≤ max_fails := by
          have := hI hm
          rw [hcnt] at this
          exact_mod_cast this
        have hnot : ¬ ((fails : Int) + 1 > max_fails) := by
          have hc0 : (0 : Int) ≤ (count_defaults markup docs pre : Int) := by positivity
          omega
        rw [if_pos ⟨hm, hd⟩, if_neg hnot]
        rw [ih (fails + 1) (attrs ++ [(name, resolved_value markup docs f)]) hpre
          (fun _ => by push_cast at hIc ⊢; omega)]
        have harith : fails + 1 + count_defaults markup docs pre =
            fails + (1 + count_defaults markup docs pre) := by omega
        simp [hm, hcnt, List.append_assoc, harith]
      · have hcnt : count_defaults markup docs ((name, f) :: pre) =
            count_defaults markup docs pre := by
          simp [count_defaults, hd]
        rw [if_neg (by simp [hd])]
        rw [ih fails (attrs ++ [(name, resolved_value markup docs f)]) hpre
          (fun _ => by have := hI hm; rw [hcnt] at this; exact this)]
        simp [hm, hcnt, List.append_assoc]
    · rw [if_neg (by simp [hm])]
      rw [ih fails (attrs ++ [(name, resolved_value markup docs f)]) hpre
        (fun hc => absurd hc hm)]
      simp [hm, List.append_assoc]

/-- With fail-tracking on, once the entering failure count plus the
defaults still to come exceeds the threshold, the loop aborts with
`ParseFailAttemptsError`, and the reported count is `threshold + 1`. -/
theorem init_fields_overflow (max_fails : Int) (total : Nat) (markup : Value)
    (docs : List (Nat × Value)) (fields : List (String × Field)) :
    ∀ (fails : Nat) (attrs : List (String × Value)),
    0 ≤ max_fails →
    (∀ nf ∈ fields, backend_ok docs nf.2 = true) →
    (fails : Int) ≤ max_fails →
    (fails : Int) + count_defaults markup docs fields > max_fails →
    init_fields max_fails total markup docs fields fails attrs =
      .error (.parseFailAttempts (max_fails.toNat + 1) total) := by
  induction fields with
  | nil =>
    intro fails attrs hm _ hEnter hOver
    simp only [count_defaults, Nat.cast_zero, add_zero] at hOver
    omega
  | cons nf fields ih =>
    intro fails attrs hm h hEnter hOver
    obtain ⟨name, f⟩ := nf
    have hbf : backend_ok docs f = true := h (name, f) (by simp)
    have hrest : ∀ x ∈ fields, backend_ok docs x.2 = true :=
      fun x hx => h x (by simp [hx])
    have hres := resolve_field_of_backend_ok markup docs f hbf
    simp only [init_fields, hres]
    by_cases hd : valueEq (resolved_value markup docs f) f.default = true
    · have hcnt : count_defaults markup docs ((name, f) :: fields) =
          1 + count_defaults markup docs fields := by
        simp [count_defaults, hd]
      rw [if_pos ⟨hm, hd⟩]
      by_cases hgt : (fails : Int) + 1 > max_fails
      · rw [if_pos hgt]
        have : (fails : Int) = max_fails := by omega
        have : fails = max_fails.toNat := by omega
        simp [this]
      · rw [if_neg hgt]
        refine ih (fails + 1) _ hm hrest (by push_cast; omega) ?_
        rw [hcnt] at hOver
        push_cast at hOver ⊢
        omega
    · have hcnt : count_defaults markup docs ((name, f) :: fields) =
          count_defaults markup docs fields := by
        simp [count_defaults, hd]
      rw [if_neg (by simp [hd])]
      refine ih fails _ hm hrest hEnter ?_
      rw [hcnt] at hOver
      exact hOver

/-- With fail-tracking disabled (negative threshold) the loop never
raises `ParseFailAttemptsError`, whatever the fields resolve to. -/
theorem init_fields_no_parseFail_of_neg (max_fails : Int) (total : Nat)
    (markup : Value) (docs : List (Nat × Value)) (fields : List (String × Field)) :
    ∀ (fails k t : Nat) (attrs : List (String × Value)),
    max_fails < 0 →
    init_fields max_fails total markup docs fields fails attrs ≠
      .error (.parseFailAttempts k t) := by
  induction fields with
  | nil => intro fails k t attrs _ hcontra; simp [init_fields] at hcontra
  | cons nf fields ih =>
    intro fails k t attrs hm hcontra
    obtain ⟨name, f⟩ := nf
    simp only [init_fields] at hcontra
    cases hres : resolve_field markup docs f with
    | error e =>
      rw [hres] at hcontra
      have : e = .parseFailAttempts k t := by
        simpa using hcontra
      subst this
      cases hb : f.backend_type with
      | none => simp [resolve_field, hb] at hres
      | some u =>
        simp only [resolve_field, hb] at hres
        cases hl : docs.lookup u with
        | none => rw [hl] at hres; simp at hres
        | some doc =>
          rw [hl] at hres
          by_cases ht : truthy doc <;> simp [ht] at hres
    | ok value =>
      rw [hres] at hcontra
      dsimp only at hcontra
      rw [if_neg (by intro hc; exact absurd hc.1 (by omega))] at hcontra
      exact ih fails k t _ hm hcontra

/-- If the loop returns normally then every field's dispatch succeeded
and the accumulated attributes are exactly the initial ones followed by
one `(name, resolved value)` pair per field, in declaration order. -/
theorem init_fields_ok_inv (max_fails : Int) (total : Nat) (markup : Value)
    (docs : List (Nat × Value)) (fields : List (String × Field)) :
    ∀ (fails fails2 : Nat) (attrs0 attrs : List (String × Value)),
    init_fields max_fails total markup docs fields fails attrs0 =
      .ok (attrs, fails2) →
    attrs = attrs0 ++ (fields.map fun nf => (nf.1, resolved_value markup docs nf.2)) ∧
      ∀ nf ∈ fields, backend_ok docs nf.2 = true := by
  induction fields with
  | nil =>
    intro fails fails2 attrs0 attrs h
    simp only [init_fields, Except.ok.injEq, Prod.mk.injEq] at h
    simp [h.1.symm]
  | cons nf fields ih =>
    intro fails fails2 attrs0 attrs h
    obtain ⟨name, f⟩ := nf
    simp only [init_fields] at h
    cases hres : resolve_field markup docs f with
    | error e => rw [hres] at h; simp at h
    | ok value =>
      rw [hres] at h
      dsimp only at h
      obtain ⟨hbf, hv⟩ := resolve_field_ok_inv markup docs f value hres
      by_cases hc : 0 ≤ max_fails ∧ valueEq value f.default = true
      · rw [if_pos hc] at h
        by_cases hgt : (fails : Int) + 1 > max_fails
        · rw [if_pos hgt] at h; simp at h
        · rw [if_neg hgt] at h
          obtain ⟨ha, hall⟩ := ih _ _ _ _ h
          refine ⟨?_, ?_⟩
          · rw [ha, hv]; simp
          · intro x hx
            rcases List.mem_cons.mp hx with hx | hx
            · subst hx; exact hbf
            · exact hall x hx
      · rw [if_neg hc] at h
        obtain ⟨ha, hall⟩ := ih _ _ _ _ h
        refine ⟨?_, ?_⟩
        · rw [ha, hv]; simp
        · intro x hx
          rcases List.mem_cons.mp hx with hx | hx
          · subst hx; exact hbf
          · exact hall x hx

/-! ### Claim theorems -/

/-- C4: `BaseField._raise_validator` raises `ValidationError` if and
only if the schema's validation enforcement toggle `__VALIDATE__` is
enabled and the configured validator returns false on the value; with
enforcement disabled, or with no validator configured, it returns
normally (so construction proceeds and stores the value). -/
theorem raise_validator_characterization (validateFlag : Bool)
    (f : ValidatorCfg) (v : Value) :
    (_raise_validator validateFlag f v = .error .validationError ↔
      validateFlag = true ∧ ∃ p, f.validator = some p ∧ p v = false) ∧
    (validateFlag = false → _raise_validator validateFlag f v = .ok ()) ∧
    (f.validator = Option.none → _raise_validator validateFlag f v = .ok ()) := by
  refine ⟨⟨?_, ?_⟩, ?_, ?_⟩
  · intro h
    unfold _raise_validator at h
    split_ifs at h with hc
    obtain ⟨hv, hval⟩ := hc
    refine ⟨hv, ?_⟩
    cases hp : f.validator with
    | none => rw [_validate, hp] at hval; simp at hval
    | some p =>
      refine ⟨p, rfl, ?_⟩
      rw [_validate, hp] at hval
      exact hval
  · rintro ⟨hv, p, hp, hpv⟩
    simp [_raise_validator, hv, _validate, hp, hpv]
  · intro h
    simp [_raise_validator, h]
  · intro h
    simp [_raise_validator, _validate, h]

/-- Witness for C4: a validator that always returns false raises with
enforcement on, does not raise with enforcement off, and a missing
validator never raises. -/
theorem raise_validator_characterization_witness :
    _raise_validator true ⟨some fun _ => false⟩ (.str "v") = .error .validationError ∧
    _raise_validator false ⟨some fun _ => false⟩ (.str "v") = .ok () ∧
    _raise_validator true ⟨Option.none⟩ (.str "v") = .ok () :=
  ⟨(raise_validator_characterization true ⟨some fun _ => false⟩ (.str "v")).1.mpr
      ⟨rfl, fun _ => false, rfl, rfl⟩,
   (raise_validator_characterization false ⟨some fun _ => false⟩ (.str "v")).2.1 rfl,
   (raise_validator_characterization true ⟨Option.none⟩ (.str "v")).2.2 rfl⟩

/-- C3: `BaseField._get_type` returns the annotation itself for a bare
non-container class; the first inner type argument for a parametrized
builtin generic (`types.GenericAlias`), a PEP-604 union
(`types.UnionType`), or a `typing`-level wrapper such as `Optional[T]`,
when that argument is a non-container class; `None` (no coercion) when
the resolved type is `dict` or `list`; and `None` together with a
`RuntimeWarning` — returning normally, not raising — when the resolved
object is not a class and `issubclass` introspection fails. -/
theorem get_type_characterization :
    (∀ c : PyClass, isDictOrList c = false →
      get_type (some (.cls c)) = (some c, false) ∧
      ∀ rest, get_type (some (.genericAlias (.cls c) rest)) = (some c, false) ∧
        get_type (some (.unionType (.cls c) rest)) = (some c, false) ∧
        get_type (some (.typingGeneric (.cls c) rest)) = (some c, false)) ∧
    (∀ c : PyClass, isDictOrList c = true →
      get_type (some (.cls c)) = (Option.none, false) ∧
      ∀ rest, get_type (some (.genericAlias (.cls c) rest)) = (Option.none, false) ∧
        get_type (some (.unionType (.cls c) rest)) = (Option.none, false) ∧
        get_type (some (.typingGeneric (.cls c) rest)) = (Option.none, false)) ∧
    (∀ (a : Ann) (rest : List Ann), (∀ c : PyClass, a ≠ .cls c) →
      get_type (some (.genericAlias a rest)) = (Option.none, true) ∧
      get_type (some (.unionType a rest)) = (Option.none, true) ∧
      get_type (some (.typingGeneric a rest)) = (Option.none, true)) ∧
    (∀ name, get_type (some (.special name)) = (Option.none, true)) ∧
    get_type Option.none = (Option.none, false) := by
  refine ⟨?_, ?_, ?_, ?_, rfl⟩
  · intro c hc
    exact ⟨by simp [get_type, hc], fun rest =>
      ⟨by simp [get_type, hc], by simp [get_type, hc], by simp [get_type, hc]⟩⟩
  · intro c hc
    exact ⟨by simp [get_type, hc], fun rest =>
      ⟨by simp [get_type, hc], by simp [get_type, hc], by simp [get_type, hc]⟩⟩
  · intro a rest ha
    cases a with
    | cls c => exact absurd rfl (ha c)
    | genericAlias h r => exact ⟨rfl, rfl, rfl⟩
    | unionType h r => exact ⟨rfl, rfl, rfl⟩
    | typingGeneric h r => exact ⟨rfl, rfl, rfl⟩
    | special n => exact ⟨rfl, rfl, rfl⟩
  · intro name
    rfl

/-- Witness for C3: a bare `int` annotation, `list[str]`, a bare `list`,
and a nested non-class inner argument (`list[list[int]]`-style). -/
theorem get_type_characterization_witness :
    get_type (some (.cls .intC)) = (some .intC, false) ∧
    get_type (some (.genericAlias (.cls .strC) [])) = (some .strC, false) ∧
    get_type (some (.cls .listC)) = (Option.none, false) ∧
    get_type (some (.genericAlias (.genericAlias (.cls .intC) []) [])) =
      (Option.none, true) :=
  ⟨(get_type_characterization.1 .intC rfl).1,
   ((get_type_characterization.1 .strC rfl).2 []).1,
   (get_type_characterization.2.1 .listC rfl).1,
   (get_type_characterization.2.2.1 (.genericAlias (.cls .intC) []) []
      (fun _ h => Ann.noConfusion h)).1⟩

/-- C2 counterexample: the constructed instance with resolved fields
`{"a": "x", "b": ""}` has a truthy resolved field value (`"x"`), yet
`__bool__` — `all(list(self.dict().values()))` — returns `False`,
refuting "the instance is truthy if at least one resolved field value
is truthy". -/
theorem truthiness_counterexample :
    truthy (.str "x") = true ∧
    schema_bool [("a", .str "x"), ("b", .str "")] = false :=
  ⟨rfl, rfl⟩

/-- C2 (amended): a constructed instance is truthy if and only if
*every* value of its mapping conversion `dict()` is truthy (so an
instance with at least one falsy converted field value is falsy, and an
instance all of whose resolved field values are truthy is truthy);
`bool()` of a nested schema instance likewise equals `schema_bool` of
its attributes. -/
theorem bool_iff_all_values_truthy (attrs : List (String × Value)) :
    (schema_bool attrs = true ↔ ∀ kv ∈ attrs, truthy (to_dict kv.2) = true) ∧
    truthy (.schema attrs) = schema_bool attrs := by
  constructor
  · simp only [schema_bool, instance_dict_eq_map, List.all_eq_true,
      List.map_map, List.mem_map, Function.comp, Prod.exists,
      forall_exists_index, and_imp, Prod.forall]
    constructor
    · intro h a b hab
      exact h (to_dict b) a b hab rfl
    · intro h x a b hab hx
      exact hx ▸ h a b hab
  · exact schemaAll_eq_schema_bool attrs

/-- Witness for (amended) C2: an instance whose two resolved values are
truthy is truthy. -/
theorem bool_iff_all_values_truthy_witness :
    schema_bool [("a", .str "x"), ("b", .int 2)] = true :=
  (bool_iff_all_values_truthy [("a", .str "x"), ("b", .int 2)]).1.mpr
    (by intro kv h; fin_cases h <;> rfl)

theorem convList_all_schema (xs : List Value) (h : xs.all isSchema = true) :
    convList xs = xs.map to_dict := by
  induction xs with
  | nil => rfl
  | cons x rest ih =>
    simp only [List.all_cons, Bool.and_eq_true] at h
    cases x <;> simp_all [isSchema, convList, to_dict]

theorem convKvs_all_schema (kvs : List (String × Value))
    (h : (kvs.map Prod.snd).all isSchema = true) :
    convKvs kvs = kvs.map fun kv => (kv.1, to_dict kv.2) := by
  induction kvs with
  | nil => rfl
  | cons kv rest ih =>
    obtain ⟨k, v⟩ := kv
    simp only [List.map_cons, List.all_cons, Bool.and_eq_true] at h
    cases v <;> simp_all [isSchema, convKvs, to_dict]

theorem isSchema_to_dict (v : Value) : isSchema (to_dict v) = false := by
  cases v with
  | list xs => by_cases h : xs.all isSchema <;> simp [to_dict, h, isSchema]
  | dict kvs =>
    by_cases h : (kvs.map Prod.snd).all isSchema <;> simp [to_dict, h, isSchema]
  | none => rfl
  | str s => rfl
  | int n => rfl
  | bool b => rfl
  | schema attrs => rfl

/-- C8: the mapping conversion `BaseSchema.dict` / `BaseSchema._to_dict`
recursively converts a nested schema instance, a list all of whose
elements are schema instances, and a dict all of whose values are schema
instances, into plain mappings — and its output is never itself a schema
object — while every other value (scalars, mixed lists, mixed dicts)
passes through unchanged. -/
theorem to_dict_characterization :
    (∀ attrs, to_dict (.schema attrs) =
      .dict (attrs.map fun kv => (kv.1, to_dict kv.2))) ∧
    (∀ xs : List Value, xs.all isSchema = true →
      to_dict (.list xs) = .list (xs.map to_dict)) ∧
    (∀ kvs : List (String × Value), (kvs.map Prod.snd).all isSchema = true →
      to_dict (.dict kvs) = .dict (kvs.map fun kv => (kv.1, to_dict kv.2))) ∧
    (∀ v, isSchema (to_dict v) = false) ∧
    (to_dict .none = .none) ∧
    (∀ s, to_dict (.str s) = .str s) ∧
    (∀ n, to_dict (.int n) = .int n) ∧
    (∀ b, to_dict (.bool b) = .bool b) ∧
    (∀ xs : List Value, xs.all isSchema = false → to_dict (.list xs) = .list xs) ∧
    (∀ kvs : List (String × Value), (kvs.map Prod.snd).all isSchema = false →
      to_dict (.dict kvs) = .dict kvs) := by
  refine ⟨?_, ?_, ?_, isSchema_to_dict, rfl, fun _ => rfl, fun _ => rfl,
    fun _ => rfl, ?_, ?_⟩
  · intro attrs
    rw [to_dict, instance_dict_eq_map]
  · intro xs h
    rw [to_dict, if_pos h, convList_all_schema xs h]
  · intro kvs h
    rw [to_dict, if_pos h, convKvs_all_schema kvs h]
  · intro xs h
    rw [to_dict, if_neg (by simp [h])]
  · intro kvs h
    rw [to_dict, if_neg (by simp [h])]

/-- Witness for C8: a list of two schema instances converts to a list of
two plain dicts. -/
theorem to_dict_characterization_witness :
    to_dict (.list [.schema [("a", .int 1)], .schema []]) =
      .list [.dict [("a", .int 1)], .dict []] :=
  to_dict_characterization.2.1 [.schema [("a", .int 1)], .schema []] rfl

/-- C1: construction raises `ParseFailAttemptsError` if and only if
fail-tracking is enabled (`__MAX_FAILS_COUNTER__ >= 0`) and the number
of fields whose resolved value equals their configured default exceeds
the threshold.  With a negative threshold the error is never raised,
whatever the fields resolve to; when every backend dispatch succeeds and
the default-count stays within the threshold (or tracking is off) the
instance is fully populated, defaults included; when the count exceeds
the threshold the error reports `threshold + 1` of the total field
count. -/
theorem parse_fail_policy (s : Schema) (build : Nat → String → Value)
    (markup : String) :
    (s.max_fails < 0 → ∀ k t, schema_init s build markup ≠
      .error (.parseFailAttempts k t)) ∧
    ((∀ nf ∈ s.fields, backend_ok (schema_docs s build markup) nf.2 = true) →
      ((s.max_fails < 0 ∨
          (count_defaults (.str markup) (schema_docs s build markup) s.fields : Int) ≤
            s.max_fails) →
        schema_init s build markup = .ok (s.fields.map fun nf =>
          (nf.1, resolved_value (.str markup) (schema_docs s build markup) nf.2))) ∧
      (0 ≤ s.max_fails →
        (count_defaults (.str markup) (schema_docs s build markup) s.fields : Int) >
          s.max_fails →
        schema_init s build markup =
          .error (.parseFailAttempts (s.max_fails.toNat + 1) s.fields.length))) := by
  refine ⟨?_, fun hok => ⟨?_, ?_⟩⟩
  · intro hneg k t hcontra
    revert hcontra
    unfold schema_init
    cases hinit : init_fields s.max_fails s.fields.length (.str markup)
        (schema_docs s build markup) s.fields 0 [] with
    | ok p => simp
    | error e =>
      intro hc
      have he : e = .parseFailAttempts k t := by
        simpa using hc
      exact init_fields_no_parseFail_of_neg s.max_fails s.fields.length
        (.str markup) (schema_docs s build markup) s.fields 0 k t []
        hneg (he ▸ hinit)
  · intro hcond
    have happend := init_fields_append s.max_fails s.fields.length (.str markup)
      (schema_docs s build markup) s.fields [] 0 []
      hok (fun hm => by
        rcases hcond with hneg | hle
        · exact absurd hm (by omega)
        · simpa using hle)
    rw [List.append_nil] at happend
    unfold schema_init
    rw [happend]
    simp [init_fields]
  · intro hm hover
    have hov := init_fields_overflow s.max_fails s.fields.length (.str markup)
      (schema_docs s build markup) s.fields 0 [] hm hok
      (by exact_mod_cast hm) (by simpa using hover)
    unfold schema_init
    rw [hov]

/-- Witness for C1: three fields of which two resolve to their default —
threshold 1 raises `ParseFailAttemptsError` reporting 2 of 3, threshold
2 yields the fully populated instance with the two defaults. -/
theorem parse_fail_policy_witness :
    schema_init ⟨[], 1, [("a", ⟨Option.none, .none, fun _ => .none⟩),
        ("b", ⟨Option.none, .none, fun _ => .int 5⟩),
        ("c", ⟨Option.none, .none, fun _ => .none⟩)]⟩ (fun _ _ => .none) "m" =
      .error (.parseFailAttempts 2 3) ∧
    schema_init ⟨[], 2, [("a", ⟨Option.none, .none, fun _ => .none⟩),
        ("b", ⟨Option.none, .none, fun _ => .int 5⟩),
        ("c", ⟨Option.none, .none, fun _ => .none⟩)]⟩ (fun _ _ => .none) "m" =
      .ok [("a", .none), ("b", .int 5), ("c", .none)] := by
  constructor
  · exact ((parse_fail_policy ⟨[], 1, [("a", ⟨Option.none, .none, fun _ => .none⟩),
        ("b", ⟨Option.none, .none, fun _ => .int 5⟩),
        ("c", ⟨Option.none, .none, fun _ => .none⟩)]⟩ (fun _ _ => .none) "m").2
      (by intro nf h; fin_cases h <;> rfl)).2 (by norm_num) (by decide)
  · exact ((parse_fail_policy ⟨[], 2, [("a", ⟨Option.none, .none, fun _ => .none⟩),
        ("b", ⟨Option.none, .none, fun _ => .int 5⟩),
        ("c", ⟨Option.none, .none, fun _ => .none⟩)]⟩ (fun _ _ => .none) "m").2
      (by intro nf h; fin_cases h <;> rfl)).1 (Or.inr (by decide))

/-- C5: when construction reaches a field requiring a backend class that
is absent from the schema's configured `__MARKUP_PARSERS__`, it raises
the fatal configuration `TypeError` naming that backend and aborts;
fields requiring no backend are resolved directly against the raw
markup. -/
theorem backend_mismatch (s : Schema) (build : Nat → String → Value)
    (markup : String) (pre post : List (String × Field)) (name : String)
    (f : Field) (t : Nat)
    (hsplit : s.fields = pre ++ (name, f) :: post)
    (hb : f.backend_type = some t)
    (hmiss : (schema_docs s build markup).lookup t = Option.none)
    (hpre : ∀ nf ∈ pre, backend_ok (schema_docs s build markup) nf.2 = true)
    (hcnt : 0 ≤ s.max_fails →
      (count_defaults (.str markup) (schema_docs s build markup) pre : Int) ≤
        s.max_fails) :
    schema_init s build markup = .error (.typeError t) ∧
    ∀ g : Field, g.backend_type = Option.none →
      resolve_field (.str markup) (schema_docs s build markup) g =
        .ok (g.parse (.str markup)) := by
  constructor
  · have hres : resolve_field (.str markup) (schema_docs s build markup) f =
        .error (.typeError t) := by
      simp [resolve_field, hb, hmiss]
    unfold schema_init
    rw [hsplit, init_fields_append s.max_fails _ (.str markup)
      (schema_docs s build markup) pre ((name, f) :: post) 0 [] hpre
      (fun hm => by simpa using hcnt hm)]
    simp [init_fields, hres]
  · intro g hg
    simp [resolve_field, hg]

/-- Witness for C5: a single field demanding backend 7 while no backend
is configured aborts with `TypeError`. -/
theorem backend_mismatch_witness :
    schema_init ⟨[], -1, [("a", ⟨some 7, .none, fun _ => .int 1⟩)]⟩
      (fun _ _ => .str "doc") "m" = .error (.typeError 7) :=
  (backend_mismatch ⟨[], -1, [("a", ⟨some 7, .none, fun _ => .int 1⟩)]⟩
    (fun _ _ => .str "doc") "m" [] [] "a" ⟨some 7, .none, fun _ => .int 1⟩ 7
    rfl rfl rfl (by intro nf h; cases h)
    (by intro h; exact absurd h (by norm_num))).1

/-- C9: when a reached field's required backend class *is* configured
but the document built from the markup is falsy (e.g. empty), the walrus
truthiness test `elif parser := _init_markups.get(...)` fails and
construction raises the same fatal `TypeError` as for a missing backend,
instead of resolving the field against the built document. -/
theorem backend_falsy_doc (s : Schema) (build : Nat → String → Value)
    (markup : String) (pre post : List (String × Field)) (name : String)
    (f : Field) (t : Nat) (doc : Value)
    (hsplit : s.fields = pre ++ (name, f) :: post)
    (hb : f.backend_type = some t)
    (hdoc : (schema_docs s build markup).lookup t = some doc)
    (hfalsy : truthy doc = false)
    (hpre : ∀ nf ∈ pre, backend_ok (schema_docs s build markup) nf.2 = true)
    (hcnt : 0 ≤ s.max_fails →
      (count_defaults (.str markup) (schema_docs s build markup) pre : Int) ≤
        s.max_fails) :
    schema_init s build markup = .error (.typeError t) := by
  have hres : resolve_field (.str markup) (schema_docs s build markup) f =
      .error (.typeError t) := by
    simp [resolve_field, hb, hdoc, hfalsy]
  unfold schema_init
  rw [hsplit, init_fields_append s.max_fails _ (.str markup)
    (schema_docs s build markup) pre ((name, f) :: post) 0 [] hpre
    (fun hm => by simpa using hcnt hm)]
  simp [init_fields, hres]

/-- Witness for C9: backend 7 is configured but builds the empty string
document, which is falsy — construction aborts with the same
`TypeError`. -/
theorem backend_falsy_doc_witness :
    schema_init ⟨[7], -1, [("a", ⟨some 7, .none, fun _ => .int 1⟩)]⟩
      (fun _ _ => .str "") "m" = .error (.typeError 7) :=
  backend_falsy_doc ⟨[7], -1, [("a", ⟨some 7, .none, fun _ => .int 1⟩)]⟩
    (fun _ _ => .str "") "m" [] [] "a" ⟨some 7, .none, fun _ => .int 1⟩ 7
    (.str "") rfl rfl rfl rfl (by intro nf h; cases h)
    (by intro h; exact absurd h (by norm_num))

/-- C7: a construction call that returns normally populates every
declared field name, in declaration order, with exactly the value its
field's resolution produced (a successfully resolved value or, per the
field pipeline, its configured default) — and every field's backend
dispatch succeeded, so no resolution is pending afterwards. -/
theorem construction_populates (s : Schema) (build : Nat → String → Value)
    (markup : String) (attrs : List (String × Value))
    (h : schema_init s build markup = .ok attrs) :
    attrs.map Prod.fst = s.fields.map Prod.fst ∧
    attrs = s.fields.map (fun nf =>
      (nf.1, resolved_value (.str markup) (schema_docs s build markup) nf.2)) ∧
    ∀ nf ∈ s.fields, backend_ok (schema_docs s build markup) nf.2 = true := by
  have h' : ∃ f2, init_fields s.max_fails s.fields.length (.str markup)
      (schema_docs s build markup) s.fields 0 [] = .ok (attrs, f2) := by
    revert h
    unfold schema_init
    cases hinit : init_fields s.max_fails s.fields.length (.str markup)
        (schema_docs s build markup) s.fields 0 [] with
    | ok p =>
      intro h
      refine ⟨p.2, ?_⟩
      have : p.1 = attrs := by simpa using h
      rw [← this]
    | error e => intro h; simp at h
  obtain ⟨f2, h2⟩ := h'
  obtain ⟨ha, hall⟩ := init_fields_ok_inv s.max_fails s.fields.length
    (.str markup) (schema_docs s build markup) s.fields 0 f2 [] attrs h2
  refine ⟨?_, by simpa using ha, hall⟩
  rw [ha]
  simp

/-- Witness for C7: a one-field schema resolving against backend 7's
document populates the field with the document value. -/
theorem construction_populates_witness :
    ([("a", Value.str "doc")] : List (String × Value)) =
      [("a", (⟨some 7, Value.none, fun d => d⟩ : Field))].map (fun nf =>
        (nf.1, resolved_value (.str "m")
          (schema_docs ⟨[7], -1, [("a", ⟨some 7, .none, fun d => d⟩)]⟩
            (fun _ _ => .str "doc") "m") nf.2)) :=
  (construction_populates ⟨[7], -1, [("a", ⟨some 7, .none, fun d => d⟩)]⟩
    (fun _ _ => .str "doc") "m" [("a", .str "doc")] (by rfl)).2.1

theorem lookup_setKV_self (l : List (String × Ref)) (a : String) (r : Ref) :
    (setKV l a r).lookup a = some r := by
  induction l with
  | nil => simp [setKV, List.lookup]
  | cons kv rest ih =>
    obtain ⟨k, v⟩ := kv
    by_cases hk : k = a
    · subst hk
      simp [setKV, List.lookup]
    · have hne : (a == k) = false := by
        simp [beq_eq_false_iff_ne]
        exact fun hc => hk hc.symm
      simp [setKV, hk, List.lookup, hne, ih]

theorem lookup_setKV_other (l : List (String × Ref)) (a b : String) (r : Ref)
    (hab : a ≠ b) : (setKV l a r).lookup b = l.lookup b := by
  induction l with
  | nil =>
    have hne : (b == a) = false := by
      simp [beq_eq_false_iff_ne]
      exact fun hc => hab hc.symm
    simp [setKV, List.lookup, hne]
  | cons kv rest ih =>
    obtain ⟨k, v⟩ := kv
    by_cases hk : k = a
    · subst hk
      have hne : (b == k) = false := by
        simp [beq_eq_false_iff_ne]
        exact fun hc => hab hc.symm
      simp [setKV, List.lookup, hne]
    · simp [setKV, hk, List.lookup, ih]

/-- C6 counterexample: `BaseField.__deepcopy__` is `copy.copy(self)`, a
shallow copy, so the snapshot taken by any construction binds each field
attribute to the *same* value references as the class-level declaration
(`snapshot_fields` is the identity at the reference level — here the
"state" attribute of every instance's copy and of the class field all
reference heap cell 0).  An in-place mutation of that shared cell
performed through one instance's field copy is therefore observed
through every other instance's copy and through the class declaration:
cell 0 reads `[]` before and `[1]` after.  This refutes the claim that
per-field mutable state of one instance's field copies cannot be
observed through another instance's copies or the class-level
declarations. -/
theorem snapshot_leak_counterexample :
    snapshot_fields [("f", ⟨[("state", 0)]⟩)] = [("f", ⟨[("state", 0)]⟩)] ∧
    getattr_ref (field_deepcopy ⟨[("state", 0)]⟩) "state" = some 0 ∧
    heap_get [Value.list []] 0 = some (.list []) ∧
    heap_get (heap_set [Value.list []] 0 (.list [.int 1])) 0 =
      some (.list [.int 1]) :=
  ⟨rfl, rfl, rfl, rfl⟩

/-- C6 (amended): every construction snapshots the class-level field
mapping into a fresh instance-local mapping whose field objects are
produced by `BaseField.__deepcopy__`, a *shallow* copy: each copy
carries the same attribute-to-reference bindings as its class-level
original, so the class mapping itself is never mutated and rebinding an
attribute on one instance's copy is a local update that leaves every
other attribute binding (and hence every other instance's copy and the
class declaration) untouched; however the referenced attribute values
are shared, so in-place heap mutation through a shared reference is
visible to every holder of that reference, while all other heap cells
are unaffected. -/
theorem snapshot_shallow_semantics :
    (∀ fs : List (String × FieldObj), snapshot_fields fs =
      fs.map fun nf => (nf.1, ⟨nf.2.attrs⟩)) ∧
    (∀ (fo : FieldObj) (a : String),
      getattr_ref (field_deepcopy fo) a = getattr_ref fo a) ∧
    (∀ (fo : FieldObj) (a : String) (r : Ref),
      getattr_ref (setattr_ref (field_deepcopy fo) a r) a = some r) ∧
    (∀ (fo : FieldObj) (a b : String) (r : Ref), a ≠ b →
      getattr_ref (setattr_ref (field_deepcopy fo) a r) b = getattr_ref fo b) ∧
    (∀ (h : Heap) (r : Ref) (v : Value), r < h.length →
      heap_get (heap_set h r v) r = some v) ∧
    (∀ (h : Heap) (r r' : Ref) (v : Value), r' ≠ r →
      heap_get (heap_set h r v) r' = heap_get h r') := by
  refine ⟨fun fs => rfl, fun fo a => rfl, ?_, ?_, ?_, ?_⟩
  · intro fo a r
    exact lookup_setKV_self fo.attrs a r
  · intro fo a b r hab
    exact lookup_setKV_other fo.attrs a b r hab
  · intro h r v hr
    exact List.getElem?_set_self hr
  · intro h r r' v hne
    exact List.getElem?_set_ne (Ne.symm hne)

/-- Witness for (amended) C6: rebinding "state" on a copy to reference 5
reads back 5 while the untouched attribute "q" still reads 9; setting
heap cell 0 is visible at cell 0 and invisible at cell 1. -/
theorem snapshot_shallow_semantics_witness :
    getattr_ref (setattr_ref (field_deepcopy ⟨[("state", 0), ("q", 9)]⟩)
      "state" 5) "state" = some 5 ∧
    getattr_ref (setattr_ref (field_deepcopy ⟨[("state", 0), ("q", 9)]⟩)
      "state" 5) "q" = some 9 ∧
    heap_get (heap_set [Value.list [], Value.int 3] 0 (.str "mut")) 0 =
      some (.str "mut") ∧
    heap_get (heap_set [Value.list [], Value.int 3] 0 (.str "mut")) 1 =
      some (.int 3) :=
  ⟨snapshot_shallow_semantics.2.2.1 ⟨[("state", 0), ("q", 9)]⟩ "state" 5,
   (snapshot_shallow_semantics.2.2.2.1 ⟨[("state", 0), ("q", 9)]⟩ "state" "q" 5
      (by decide)).trans rfl,
   snapshot_shallow_semantics.2.2.2.2.1 [Value.list [], Value.int 3] 0
      (.str "mut") (by norm_num),
   (snapshot_shallow_semantics.2.2.2.2.2 [Value.list [], Value.int 3] 0 1
      (.str "mut") (by norm_num)).trans rfl⟩

/-- C10: `BaseSchema._get_fields` collects exactly the class's own
attribute-dict entries whose name is not dunder and whose value is a
`BaseField` instance, preserving declaration order, and reads only the
class's own dict: whatever the base classes contribute is ignored, so a
field declared only on a parent class is never collected. -/
theorem get_fields_characterization :
    (∀ (c : ClsDict) (n : String) (f : Field),
      (n, f) ∈ _get_fields c ↔
        ((n, Member.field f) ∈ c.own ∧ _is_dunder n = false)) ∧
    (∀ c : ClsDict,
      List.Sublist ((_get_fields c).map fun nf => (nf.1, Member.field nf.2))
        c.own) ∧
    (∀ (own inh inh' : List (String × Member)),
      _get_fields ⟨own, inh⟩ = _get_fields ⟨own, inh'⟩) ∧
    (∀ (c : ClsDict) (n : String) (f : Field),
      (n, Member.field f) ∈ c.inherited → (∀ m, (n, m) ∉ c.own) →
      (n, f) ∉ _get_fields c) := by
  have hmem : ∀ (c : ClsDict) (n : String) (f : Field),
      (n, f) ∈ _get_fields c ↔
        ((n, Member.field f) ∈ c.own ∧ _is_dunder n = false) := by
    intro c n f
    rw [_get_fields, List.mem_filterMap]
    constructor
    · rintro ⟨nm, hmem, hg⟩
      obtain ⟨n', m⟩ := nm
      cases m with
      | other => simp at hg
      | field f' =>
        by_cases hd : _is_dunder n'
        · simp [hd] at hg
        · simp only [hd, Bool.false_eq_true, if_false] at hg
          obtain ⟨h1, h2⟩ := Prod.mk.injEq .. ▸ (Option.some.injEq .. ▸ hg)
          subst h1; subst h2
          exact ⟨hmem, by simpa using hd⟩
    · rintro ⟨hmem, hd⟩
      exact ⟨(n, .field f), hmem, by simp [hd]⟩
  refine ⟨hmem, ?_, fun own inh inh' => rfl, ?_⟩
  · intro c
    show List.Sublist ((c.own.filterMap _).map _) c.own
    induction c.own with
    | nil => simp
    | cons nm rest ih =>
      obtain ⟨n', m⟩ := nm
      cases m with
      | other => simpa [List.filterMap_cons] using ih.cons (n', Member.other)
      | field f' =>
        by_cases hd : _is_dunder n'
        · simpa [List.filterMap_cons, hd] using ih.cons (n', Member.field f')
        · simpa [List.filterMap_cons, hd] using ih.cons₂ (n', Member.field f')
  · intro c n f hinh hnotown hcontra
    exact hnotown (Member.field f) ((hmem c n f).mp hcontra).1

/-- Witness for C10: a class dict with one regular field, a dunder entry
and a non-field entry collects exactly the field; a field present only
in the inherited entries is not collected. -/
theorem get_fields_characterization_witness :
    ("a", (⟨Option.none, Value.none, fun _ => Value.none⟩ : Field)) ∈
      _get_fields ⟨[("a", .field ⟨Option.none, .none, fun _ => .none⟩),
        ("__doc__", .other)], []⟩ ∧
    ("p", (⟨Option.none, Value.none, fun _ => Value.none⟩ : Field)) ∉
      _get_fields ⟨[("a", .field ⟨Option.none, .none, fun _ => .none⟩)],
        [("p", .field ⟨Option.none, .none, fun _ => .none⟩)]⟩ :=
  ⟨(get_fields_characterization.1 _ "a" _).mpr ⟨by simp, rfl⟩,
   get_fields_characterization.2.2.2 _ "p" _ (by simp)
     (by intro m hc; simp at hc)⟩

end ScrapeSchema
